import Mathlib

/-!
Verification of the Occam-Extension complexity-annotation subsystem.

This file is a shallow embedding of the TypeScript sources
`src/complexityAnalyzer.ts`, `src/apiClient.ts` and `src/extension.ts`:

* a document is a `List String` of lines (vscode's line model, `"\n"` EOL);
* JS `number` time stamps are `Nat` milliseconds; the 32-bit signed hash
  arithmetic of `getCacheKey` is `Int` with an explicit `toInt32` reduction;
* the regular expressions of the source are hand-compiled to deterministic
  matchers over `List Char` (the character classes involved are pairwise
  disjoint at every junction point, so the greedy expansion is exact);
* side effects (notifications, log lines, network calls, decoration
  rendering) are reified as an `Effect` list returned by each operation;
  the actual rendering of markdown / webview strings is the host editor's
  job and is out of scope, so notifications carry their payload instead of
  a fully formatted string where the formatting is pure display.
-/

/-! ## Character classes (JS `\s` and `\w`, ASCII range) -/

/-- JS `\s` on the ASCII range: space, tab, newline, carriage return,
vertical tab, form feed. -/
def isWs (c : Char) : Bool :=
  c = ' ' || c = '\t' || c = '\n' || c = '\r' || c = '\x0b' || c = '\x0c'

/-- JS `\w`: `[A-Za-z0-9_]`. -/
def isWord (c : Char) : Bool :=
  c.isAlphanum || c = '_'

/-- Brace contribution of one character: `\x7b` counts +1, `\x7d` counts -1,
anything else 0 (complexityAnalyzer.ts lines 208-214). -/
def braceDelta (c : Char) : Int :=
  if c = '\x7b' then 1 else if c = '\x7d' then -1 else 0

/-- Total brace balance of a character list. -/
def bal : List Char → Int
  | [] => 0
  | c :: rest => braceDelta c + bal rest

/-! ## Hand-compiled matchers for the function-start regular expression

The source regex (complexityAnalyzer.ts line 176) is
`\b(function\s+\w+|const\s+\w+\s*=\s*(?:async\s+)?(?:function|\([^)]*\)\s*=>)|\w+\s*\([^)]*\)\s*\x7b)`
and line 299 uses the same three-way group anchored as `^[\s]*(...)` with
flags `gm`.  Each matcher takes the remaining input and returns the rest of
the input after the match, or `none`.  Greedy repetition is exact here:
`\s+`/`\s*` is always followed by a character outside `\s`, `\w+` by a
character outside `\w`, and `[^)]*` by `)` itself, so no backtracking into
a repetition can succeed where the greedy parse failed. -/

/-- Match a literal character sequence. -/
def dropLit : List Char → List Char → Option (List Char)
  | [], l => some l
  | _ :: _, [] => none
  | p :: ps, c :: cs => if c = p then dropLit ps cs else none

/-- Match one-or-more characters satisfying `p` (greedy `p+`). -/
def plusP (p : Char → Bool) : List Char → Option (List Char)
  | [] => none
  | c :: cs => if p c then some (cs.dropWhile p) else none

/-- Match exactly one given character. -/
def expectChar (ch : Char) : List Char → Option (List Char)
  | [] => none
  | c :: cs => if c = ch then some cs else none

/-- Alternative 1: `function\s+\w+`. -/
def matchAlt1 (l : List Char) : Option (List Char) :=
  ((dropLit "function".data l).bind (plusP isWs)).bind (plusP isWord)

/-- The `\([^)]*\)\s*=>` arm of the arrow-function alternative. -/
def matchParenArrow (l : List Char) : Option (List Char) :=
  (expectChar '(' l).bind fun r =>
    (expectChar ')' (r.dropWhile (fun c => !(c = ')')))).bind fun r2 =>
      dropLit "=>".data (r2.dropWhile isWs)

/-- The `(?:function|\([^)]*\)\s*=>)` group. -/
def matchFnOrArrow (l : List Char) : Option (List Char) :=
  (dropLit "function".data l).orElse fun _ => matchParenArrow l

/-- Alternative 2: `const\s+\w+\s*=\s*(?:async\s+)?(?:function|\([^)]*\)\s*=>)`.
The optional `async\s+` is tried first and dropped on failure of the tail,
mirroring the regex engine's backtracking over the `?`. -/
def matchAlt2 (l : List Char) : Option (List Char) :=
  (((((dropLit "const".data l).bind (plusP isWs)).bind
        (plusP isWord)).map (List.dropWhile isWs)).bind
      (expectChar '=')).map (List.dropWhile isWs) |>.bind fun r =>
    (((dropLit "async".data r).bind (plusP isWs)).bind matchFnOrArrow).orElse
      fun _ => matchFnOrArrow r

/-- Alternative 3: `\w+\s*\([^)]*\)\s*\x7b`. -/
def matchAlt3 (l : List Char) : Option (List Char) :=
  ((((plusP isWord l).map (List.dropWhile isWs)).bind
      (expectChar '(')).map (List.dropWhile (fun c => !(c = ')')))).bind
    (expectChar ')') |>.map (List.dropWhile isWs) |>.bind (expectChar '\x7b')

/-- The three-way alternation group, in source order. -/
def matchGroup (l : List Char) : Option (List Char) :=
  (matchAlt1 l).orElse fun _ => (matchAlt2 l).orElse fun _ => matchAlt3 l

/-- Word-boundary `\b` before the group: every alternative starts with a
`\w` character, so the boundary holds iff the previous character (if any)
is not a word character. -/
def boundaryOK : Option Char → Bool
  | none => true
  | some c => !(isWord c)

/-- Scan all start positions of a line, carrying the previous character for
the `\b` check: semantics of `functionRegex.test(text)`. -/
def testFrom : Option Char → List Char → Bool
  | _, [] => false
  | prev, c :: rest =>
    (boundaryOK prev && (matchGroup (c :: rest)).isSome) || testFrom (some c) rest

/-- `functionRegex.test(text)` for the regex of complexityAnalyzer.ts line 176. -/
def test (s : String) : Bool :=
  testFrom none s.data

/-! ## Document primitives -/

/-- A zero-based (line, character) position. -/
structure Pos where
  line : Nat
  character : Nat
deriving DecidableEq, Repr

/-- A span from `(startLine, startChar)` to `(endLine, endChar)`. -/
structure Range where
  startLine : Nat
  startChar : Nat
  endLine : Nat
  endChar : Nat
deriving DecidableEq, Repr

/-- `document.lineAt(i).text`; callers of the source only pass in-bounds
lines, out-of-bounds reads default to the empty line. -/
def lineAt (doc : List String) (i : Nat) : String :=
  doc.getD i ""

/-- `document.getText()` : the lines joined by `"\n"`. -/
def flattenS : List String → String
  | [] => ""
  | [l] => l
  | l :: rest => l ++ "\n" ++ flattenS rest

/-- `document.getText(range)` for the full-line ranges produced by
`getFunctionAtPosition` (startChar = 0, endChar = line length). -/
def getText (doc : List String) (r : Range) : String :=
  flattenS ((doc.drop r.startLine).take (r.endLine - r.startLine + 1))

/-- JS `String.prototype.trim` on the ASCII range. -/
def jsTrim (s : String) : String :=
  String.mk (((s.data.dropWhile isWs).reverse.dropWhile isWs).reverse)

/-! ## The Boundary Locator: `ComplexityAnalyzer.getFunctionAtPosition`
(complexityAnalyzer.ts lines 171-226) -/

/-- The backward scan of lines 188-199: from `i` down to 0, the first line
matching the start regex wins; a blank line strictly above the query line
stops the scan. -/
def findStartAux (doc : List String) (posLine : Nat) : Nat → Option Nat
  | 0 =>
    if test (lineAt doc 0) = true then some 0 else none
  | i + 1 =>
    if test (lineAt doc (i + 1)) = true then some (i + 1)
    else if i + 1 < posLine ∧ jsTrim (lineAt doc (i + 1)) = "" then none
    else findStartAux doc posLine i

/-- Start-of-function search from the query line downward. -/
def findStart (doc : List String) (posLine : Nat) : Option Nat :=
  findStartAux doc posLine posLine

/-- One line of the brace-counting loop (lines 207-222): update the count per
character and stop as soon as it is zero on a line after the start line.
`none` signals "end of function found on this line". -/
def lineScan (afterStart : Bool) : Int → List Char → Option Int
  | count, [] => some count
  | count, ch :: rest =>
    if (count + braceDelta ch = 0) ∧ afterStart = true then none
    else lineScan afterStart (count + braceDelta ch) rest

/-- The forward scan over lines from `startLine`, threading the running brace
count, returning the line on which the count first returns to zero. -/
def findEndAux (startLine : Nat) : Nat → Int → List String → Option Nat
  | _, _, [] => none
  | i, count, l :: rest =>
    match lineScan (decide (startLine < i)) count l.data with
    | none => some i
    | some count' => findEndAux startLine (i + 1) count' rest

/-- End-of-function search: brace counting from `startLine` (lines 206-223). -/
def findEnd (doc : List String) (startLine : Nat) : Option Nat :=
  findEndAux startLine startLine 0 (doc.drop startLine)

/-- `ComplexityAnalyzer.getFunctionAtPosition`: the guard of line 177 rejects
any position whose own line does not match the start regex; otherwise the
backward scan picks `startLine`, and brace counting picks `endLine`. -/
def getFunctionAtPosition (doc : List String) (pos : Pos) : Option Range :=
  if test (lineAt doc pos.line) = false then none
  else
    match findStart doc pos.line with
    | none => none
    | some startLine =>
      match findEnd doc startLine with
      | none => none
      | some endLine => some ⟨startLine, 0, endLine, (lineAt doc endLine).length⟩

/-! ## The Annotation Cache

`complexityCache : Map<string, CachedComplexity>` (complexityAnalyzer.ts
lines 4-15).  A JS `Map` preserves insertion order and `set` replaces the
value of an existing key in place. -/

/-- The raw JSON object shape the classifier service returns.  The source's
`response.data as ComplexityResult` is a compile-time-only assertion, so at
run time every field value is unvalidated wire data; numbers are modelled as
rationals. -/
structure WireResult where
  complexity : String
  confidence : Rat
  loc : Int
  cyclomatic : Int
  nesting : Int
  loops : Int
  conditionals : Int
  processingTimeMs : Rat
  suggestions : List (String × String)
deriving DecidableEq, Repr

/-- `CachedComplexity` (complexityAnalyzer.ts lines 4-8). -/
structure CachedComplexity where
  result : WireResult
  code : String
  timestamp : Nat
deriving DecidableEq, Repr

/-- The `complexityCache` map, as an insertion-ordered association list. -/
abbrev Cache := List (String × CachedComplexity)

/-- `Map.prototype.get`. -/
def mapGet (m : Cache) (k : String) : Option CachedComplexity :=
  match m with
  | [] => none
  | (k', v) :: rest => if k' = k then some v else mapGet rest k

/-- `Map.prototype.set`: replace in place, or append. -/
def mapSet (m : Cache) (k : String) (v : CachedComplexity) : Cache :=
  match m with
  | [] => [(k, v)]
  | (k', v') :: rest => if k' = k then (k, v) :: rest else (k', v') :: mapSet rest k v

/-! ## The cache key: `ComplexityAnalyzer.getCacheKey`
(complexityAnalyzer.ts lines 228-237) -/

/-- JS `ToInt32`: reduce mod 2^32 into the signed range. -/
def toInt32 (n : Int) : Int :=
  let m := n % 4294967296
  if m < 2147483648 then m else m - 4294967296

/-- One step of the rolling hash: `hash = ((hash << 5) - hash) + char;
hash = hash & hash`.  `hash << 5` is `ToInt32(hash * 32)` (the running hash
is already an int32), the subtraction and addition are exact in doubles at
these magnitudes, and `hash & hash` is `ToInt32` of the result. -/
def hashStep (h : Int) (c : Nat) : Int :=
  toInt32 (toInt32 (h * 32) - h + c)

/-- The character fold of `getCacheKey`; `charCodeAt` coincides with the
code point for the ASCII/BMP inputs at hand. -/
def hashChars : List Char → Int → Int
  | [], h => h
  | c :: rest, h => hashChars rest (hashStep h c.toNat)

/-- `getCacheKey(code) = hash.toString()`. -/
def getCacheKey (code : String) : String :=
  toString (hashChars code.data 0)

/-! ## Cache get / put as inlined on the hover path
(complexityAnalyzer.ts lines 146-158): these name the `get`/`put`
operations §4.2 of the spec describes. -/

/-- `CACHE_DURATION = 5 * 60 * 1000` milliseconds (line 15). -/
def CACHE_DURATION : Nat := 5 * 60 * 1000

/-- `get`: key the text, look up, treat an entry as present only while
`now - timestamp < CACHE_DURATION` (line 147).  Pure: it never removes the
stored entry. -/
def cacheGet (cache : Cache) (code : String) (now : Nat) : Option WireResult :=
  match mapGet cache (getCacheKey code) with
  | some cached =>
    if now - cached.timestamp < CACHE_DURATION then some cached.result else none
  | none => none

/-- `put`: store `{result, code, timestamp: now}` under the key of the text
(lines 154-158). -/
def cachePut (cache : Cache) (code : String) (result : WireResult) (now : Nat) : Cache :=
  mapSet cache (getCacheKey code) ⟨result, code, now⟩

/-! ## Effects and the Classifier Client: `ApiClient.analyzeCode`
(apiClient.ts lines 29-53) -/

/-- Decoration payload of `createInlineDecoration` (complexityAnalyzer.ts
lines 322-337): the range is collapsed to its start position and the verdict
drives the rendered text/colour (pure display, carried as data). -/
structure Decoration where
  line : Nat
  character : Nat
  result : WireResult
deriving DecidableEq, Repr

/-- Observable side effects of the embedded operations. -/
inductive Effect where
  | showErrorMessage (msg : String)
  | showInformationMessage (msg : String)
  | showAnalysisResult (result : WireResult)
  | logError (msg : String)
  | apiCall (code : String)
  | setDecorations (decorations : List Decoration)
deriving DecidableEq, Repr

/-- Whether an effect is a classifier network call. -/
def Effect.isApiCall : Effect → Bool
  | .apiCall _ => true
  | _ => false

/-- Whether an effect is a visible user notification (error, information,
or the analysis-result notification). -/
def Effect.isVisibleNotification : Effect → Bool
  | .showErrorMessage _ => true
  | .showInformationMessage _ => true
  | .showAnalysisResult _ => true
  | _ => false

/-- The error thrown by axios: a message plus the optional
`error.response.data.detail` payload. -/
structure AxiosError where
  message : String
  responseDetail : Option String
deriving DecidableEq, Repr

/-- Outcome of the `axios.post` call, supplied as an environment parameter. -/
inductive ApiOutcome where
  | success (data : WireResult)
  | failure (err : AxiosError)
deriving DecidableEq, Repr

/-- JS `error.response?.data?.detail || error.message`: the detail string is
used unless absent or empty (falsy). -/
def jsOrDetail (e : AxiosError) : String :=
  match e.responseDetail with
  | some d => if d = "" then e.message else d
  | none => e.message

/-- `ApiClient.analyzeCode`: posts the code; on success returns
`response.data` unchanged (the `as ComplexityResult` cast validates
nothing); on failure shows an error notification built from the server
detail or transport message, then rethrows the original error. -/
def analyzeCode (code : String) (outcome : ApiOutcome) :
    Except AxiosError WireResult × List Effect :=
  match outcome with
  | .success data => (.ok data, [.apiCall code])
  | .failure e =>
    (.error e,
      [.apiCall code,
       .showErrorMessage ("API Error: " ++ jsOrDetail e ++ ". Check your API key in settings.")])

/-- Well-formedness of a classifier response as a `ComplexityVerdict`.
Modelled from the spec: §3 "ComplexityVerdict" and §6 `classify` — the
closed complexity enumeration, confidence in [0,1] and non-negative
metrics; the repository has no validation code for this. -/
def isWellFormedVerdict (w : WireResult) : Prop :=
  (w.complexity = "simple" ∨ w.complexity = "moderate" ∨ w.complexity = "complex") ∧
  0 ≤ w.confidence ∧ w.confidence ≤ 1 ∧
  0 ≤ w.loc ∧ 0 ≤ w.cyclomatic ∧ 0 ≤ w.nesting ∧ 0 ≤ w.loops ∧ 0 ≤ w.conditionals

instance (w : WireResult) : Decidable (isWellFormedVerdict w) := by
  unfold isWellFormedVerdict; infer_instance

/-! ## The hover path: `registerHoverProvider`'s `provideHover`
(complexityAnalyzer.ts lines 136-164).  The returned `Option WireResult`
stands for the hover popup (`createHoverMarkdown` is pure rendering). -/

/-- The fall-through of the hover provider on a cache miss or stale entry:
call the classifier; on success populate the cache and return the verdict,
on failure log and return no hover (lines 152-163). -/
def hoverFetch (functionCode cacheKey : String) (cache : Cache) (now : Nat)
    (outcome : ApiOutcome) : Option WireResult × Cache × List Effect :=
  match analyzeCode functionCode outcome with
  | (.ok result, effs) =>
    (some result, mapSet cache cacheKey ⟨result, functionCode, now⟩, effs)
  | (.error _, effs) =>
    (none, cache, effs ++ [.logError "Failed to analyze function on hover:"])

/-- `provideHover`: locate the function at the position, check the cache
(lines 146-149), otherwise fetch. -/
def provideHover (doc : List String) (pos : Pos) (cache : Cache) (now : Nat)
    (outcome : ApiOutcome) : Option WireResult × Cache × List Effect :=
  match getFunctionAtPosition doc pos with
  | none => (none, cache, [])
  | some functionRange =>
    match mapGet cache (getCacheKey (getText doc functionRange)) with
    | some cached =>
      if now - cached.timestamp < CACHE_DURATION then (some cached.result, cache, [])
      else hoverFetch (getText doc functionRange) (getCacheKey (getText doc functionRange))
        cache now outcome
    | none => hoverFetch (getText doc functionRange) (getCacheKey (getText doc functionRange))
        cache now outcome

/-! ## The manual-analysis path: `ComplexityAnalyzer.analyzeSelection`
(complexityAnalyzer.ts lines 53-80) -/

/-- A vscode selection. -/
structure Selection where
  startLine : Nat
  startChar : Nat
  endLine : Nat
  endChar : Nat
deriving DecidableEq, Repr

/-- `selection.isEmpty`. -/
def Selection.isEmpty (s : Selection) : Bool :=
  s.startLine = s.endLine && s.startChar = s.endChar

/-- `document.getText(selection)` for an arbitrary selection. -/
def getTextSel (doc : List String) (sel : Selection) : String :=
  if sel.startLine = sel.endLine then
    String.mk (((lineAt doc sel.startLine).data.drop sel.startChar).take
      (sel.endChar - sel.startChar))
  else
    flattenS (String.mk ((lineAt doc sel.startLine).data.drop sel.startChar)
      :: ((doc.drop (sel.startLine + 1)).take (sel.endLine - sel.startLine - 1)
        ++ [String.mk ((lineAt doc sel.endLine).data.take sel.endChar)]))

/-- `analyzeSelection`: no active editor shows an error; an empty selection
analyzes the whole document text; blank text shows "No code selected" and
stops; otherwise the classifier is called inside `withProgress` and the
result notification shown.  The method never touches `complexityCache`
(threaded through unchanged); the `try/catch` around the un-awaited
`withProgress` promise cannot observe the async rejection. -/
def analyzeSelection (editor : Option (List String × Selection)) (cache : Cache)
    (outcome : ApiOutcome) : List Effect × Cache :=
  match editor with
  | none => ([.showErrorMessage "No active editor found"], cache)
  | some (doc, selection) =>
    if jsTrim (if selection.isEmpty then flattenS doc else getTextSel doc selection) = "" then
      ([.showErrorMessage "No code selected"], cache)
    else
      match analyzeCode (if selection.isEmpty then flattenS doc else getTextSel doc selection)
          outcome with
      | (.ok result, effs) => (effs ++ [.showAnalysisResult result], cache)
      | (.error _, effs) => (effs, cache)

/-! ## The Annotation Scheduler pass: `updateInlineDecorations`
(complexityAnalyzer.ts lines 290-320) -/

/-- `document.positionAt(offset)` over the line model. -/
def positionAtAux : Nat → Nat → List String → Pos
  | i, _, [] => ⟨i, 0⟩
  | i, off, l :: rest =>
    if off ≤ l.length then ⟨i, off⟩ else positionAtAux (i + 1) (off - (l.length + 1)) rest

/-- `document.positionAt(offset)`. -/
def positionAt (doc : List String) (off : Nat) : Pos :=
  positionAtAux 0 off doc

/-- One attempt of the `^[\s]*(...)` match at a line-start position:
`[\s]*` greedily consumes whitespace (possibly across newlines) and the
group must then match at the first non-whitespace character, since every
alternative starts with a `\w` character. -/
def tryMatchMultiline (l : List Char) : Option (List Char) :=
  matchGroup (l.dropWhile isWs)

/-- The `while ((match = functionRegex.exec(text)) !== null)` loop of lines
303-317 as the list of `match.index` offsets it visits: `^` (flag `m`)
matches at offset 0 and right after each newline; after a match the search
resumes at `lastIndex` (the match never ends in a newline, because every
alternative ends in a `\w` character, `>` or `\x7b`, so the resume point is
never itself a line start).  Fuel is the text length: every step consumes at
least one character. -/
def execLoopAux : Nat → Nat → Bool → List Char → List Nat
  | 0, _, _, _ => []
  | _ + 1, _, _, [] => []
  | fuel + 1, idx, atLineStart, c :: rest =>
    if atLineStart then
      match tryMatchMultiline (c :: rest) with
      | some r =>
        idx :: execLoopAux fuel (idx + ((c :: rest).length - r.length)) false r
      | none => execLoopAux fuel (idx + 1) (c = '\n') rest
    else execLoopAux fuel (idx + 1) (c = '\n') rest

/-- All `match.index` offsets of the global multiline regex over
`document.getText()`. -/
def findMatches (doc : List String) : List Nat :=
  execLoopAux ((flattenS doc).data.length + 1) 0 true (flattenS doc).data

/-- `createInlineDecoration` (lines 322-337): the decoration is anchored at
the collapsed start of the range and carries the cached verdict. -/
def createInlineDecoration (r : Range) (result : WireResult) : Decoration :=
  ⟨r.startLine, r.startChar, result⟩

/-- The body of the scheduler's per-match loop (lines 304-316): resolve the
span at the match position, key its text, and push a decoration only for a
fresh cache hit. -/
def uidBody (doc : List String) (cache : Cache) (now : Nat)
    (acc : List Decoration) (idx : Nat) : List Decoration :=
  match getFunctionAtPosition doc (positionAt doc idx) with
  | none => acc
  | some functionRange =>
    match mapGet cache (getCacheKey (getText doc functionRange)) with
    | some cached =>
      if now - cached.timestamp < CACHE_DURATION then
        acc ++ [createInlineDecoration functionRange cached.result]
      else acc
    | none => acc

/-- `updateInlineDecorations`: bail out when inline analysis is disabled;
otherwise build the decoration list over all regex matches and hand the
full replacement set to `editor.setDecorations`. -/
def updateInlineDecorations (inlineEnabled : Bool) (doc : List String)
    (cache : Cache) (now : Nat) : List Effect :=
  if inlineEnabled = false then []
  else
    [.setDecorations ((findMatches doc).foldl (uidBody doc cache now) [])]

/-- Declarative reading of the scheduler pass: per located span, an
unexpired cache hit yields its decoration and a miss yields nothing. -/
def renderMatch (doc : List String) (cache : Cache) (now : Nat) (idx : Nat) :
    Option Decoration :=
  match getFunctionAtPosition doc (positionAt doc idx) with
  | none => none
  | some functionRange =>
    match mapGet cache (getCacheKey (getText doc functionRange)) with
    | some cached =>
      if now - cached.timestamp < CACHE_DURATION then
        some (createInlineDecoration functionRange cached.result)
      else none
    | none => none

/-- The replacement set a scheduler pass renders: exactly the unexpired
cache hits among the located spans. -/
def decorationsFromCache (doc : List String) (cache : Cache) (now : Nat) :
    List Decoration :=
  (findMatches doc).filterMap (renderMatch doc cache now)

/-! ## The debounce wiring: `setupInlineDecorations`
(complexityAnalyzer.ts lines 276-282).

Each `onDidChangeTextDocument` event runs
`setTimeout(() => this.updateInlineDecorations(editor), 500)` — a fresh
timer per event, with no handle kept and no `clearTimeout` anywhere in the
repository, so every scheduled timer eventually fires.  The state below is
(current document text, pending timer fire times); an edit is (time, new
text). -/

/-- The change-event handler: record the new text and schedule one more
timer at `eventTime + 500`. -/
def schedulerStep (st : String × List Nat) (edit : Nat × String) : String × List Nat :=
  (edit.2, st.2 ++ [edit.1 + 500])

/-- Fold a burst of edits through the handler. -/
def timersAfterEdits (edits : List (Nat × String)) : String × List Nat :=
  edits.foldl schedulerStep ("", [])

/-- Number of scheduler passes that execute for a burst of edits: one per
scheduled timer, since nothing ever cancels a timer. -/
def passesExecuted (edits : List (Nat × String)) : Nat :=
  (timersAfterEdits edits).2.length

/-! ## Declarative unterminated-brace condition (for the spec's
"count never returns to zero" hypothesis) -/

/-- Whether the running count, entering a line at `c`, hits zero after some
character of the line. -/
def lineZeroHit : Int → List Char → Bool
  | _, [] => false
  | c, ch :: rest => decide (c + braceDelta ch = 0) || lineZeroHit (c + braceDelta ch) rest

/-- Whether the running count stays nonzero over every character of every
remaining line. -/
def neverRebalancesAux : Int → List String → Bool
  | _, [] => true
  | c, l :: rest => !lineZeroHit c l.data && neverRebalancesAux (c + bal l.data) rest

/-- The brace count started at zero at line `s` never returns to zero at any
character of any later line, through the end of the document (vacuously true
for an out-of-range `s`). -/
def neverRebalances (doc : List String) (s : Nat) : Bool :=
  if doc.length ≤ s then true
  else neverRebalancesAux (bal (lineAt doc s).data) (doc.drop (s + 1))

/-! ## Helper lemmas -/

/-- `Map.set` followed by `Map.get` of the same key reads back the value. -/
theorem mapGet_mapSet_self (m : Cache) (k : String) (v : CachedComplexity) :
    mapGet (mapSet m k v) k = some v := by
  induction m with
  | nil => simp [mapSet, mapGet]
  | cons hd tl ih =>
    obtain ⟨k', v'⟩ := hd
    by_cases h : k' = k
    · simp [mapSet, mapGet, h]
    · simp [mapSet, mapGet, h, ih]

/-- When the query line itself matches the start regex, the backward scan
stops right there: `startLine` is always the query line. -/
theorem findStart_self (doc : List String) (l : Nat)
    (h : test (lineAt doc l) = true) : findStart doc l = some l := by
  unfold findStart
  cases l with
  | zero => unfold findStartAux; rw [if_pos h]
  | succ i => unfold findStartAux; rw [if_pos h]

/-- With the after-start check disabled, a line scan just accumulates the
brace balance. -/
theorem lineScan_false (count : Int) (l : List Char) :
    lineScan false count l = some (count + bal l) := by
  induction l generalizing count with
  | nil => simp [lineScan, bal]
  | cons ch rest ih =>
    unfold lineScan
    rw [if_neg (by simp)]
    rw [ih, bal]
    ring_nf

/-- With the after-start check enabled, a line whose running count never
hits zero also just accumulates the balance. -/
theorem lineScan_true_of_noHit (count : Int) (l : List Char)
    (h : lineZeroHit count l = false) :
    lineScan true count l = some (count + bal l) := by
  induction l generalizing count with
  | nil => simp [lineScan, bal]
  | cons ch rest ih =>
    unfold lineZeroHit at h
    rw [Bool.or_eq_false_iff] at h
    obtain ⟨h1, h2⟩ := h
    unfold lineScan
    rw [if_neg (by simpa using h1)]
    rw [ih _ h2, bal]
    ring_nf

/-- If no later line lets the running count return to zero, the forward scan
runs off the end of the document. -/
theorem findEndAux_none (s : Nat) (rest : List String) :
    ∀ i c, s < i → neverRebalancesAux c rest = true → findEndAux s i c rest = none := by
  induction rest with
  | nil => intro i c _ _; rfl
  | cons l tl ih =>
    intro i c hi h
    unfold neverRebalancesAux at h
    rw [Bool.and_eq_true, Bool.not_eq_true'] at h
    obtain ⟨h1, h2⟩ := h
    unfold findEndAux
    rw [decide_eq_true hi, lineScan_true_of_noHit c l.data h1]
    exact ih (i + 1) (c + bal l.data) (by omega) h2

/-- The never-rebalances condition makes `findEnd` report no span. -/
theorem findEnd_none (doc : List String) (s : Nat)
    (h : neverRebalances doc s = true) : findEnd doc s = none := by
  unfold findEnd
  by_cases hs : doc.length ≤ s
  · rw [List.drop_eq_nil_of_le hs]
    rfl
  · push_neg at hs
    have hd : doc.drop s = lineAt doc s :: doc.drop (s + 1) := by
      rw [lineAt, List.getD_eq_getElem doc "" hs]
      exact List.drop_eq_getElem_cons hs
    rw [hd]
    unfold findEndAux
    rw [show decide (s < s) = false by simp, lineScan_false]
    unfold neverRebalances at h
    rw [if_neg (by omega)] at h
    rw [show (0 : Int) + bal (lineAt doc s).data = bal (lineAt doc s).data by ring]
    exact findEndAux_none s _ (s + 1) _ (by omega) h

/-- The scheduler's accumulator loop is the filterMap of its per-match
decision. -/
theorem uidBody_foldl (doc : List String) (cache : Cache) (now : Nat)
    (l : List Nat) (acc : List Decoration) :
    l.foldl (uidBody doc cache now) acc =
      acc ++ l.filterMap (renderMatch doc cache now) := by
  induction l generalizing acc with
  | nil => simp
  | cons x xs ih =>
    have hb : uidBody doc cache now acc x =
        match renderMatch doc cache now x with
        | some d => acc ++ [d]
        | none => acc := by
      cases h1 : getFunctionAtPosition doc (positionAt doc x) with
      | none => simp [uidBody, renderMatch, h1]
      | some functionRange =>
        cases h2 : mapGet cache (getCacheKey (getText doc functionRange)) with
        | none => simp [uidBody, renderMatch, h1, h2]
        | some cached =>
          by_cases hf : now - cached.timestamp < CACHE_DURATION
          · simp [uidBody, renderMatch, h1, h2, hf]
          · simp [uidBody, renderMatch, h1, h2, hf]
    rw [List.foldl_cons, List.filterMap_cons, ih, hb]
    cases hr : renderMatch doc cache now x with
    | none => simp
    | some d => simp

/-! ## Sample verdicts used by concrete witnesses -/

/-- A well-formed sample verdict. -/
def sampleResult : WireResult := ⟨"simple", 1, 3, 1, 0, 0, 0, 12, []⟩

/-- A second, distinct well-formed sample verdict. -/
def complexResult : WireResult := ⟨"complex", 9/10, 40, 12, 4, 3, 5, 20, []⟩

/-! ## Claim C1 -/

/-- C1 counterexample: in the well-nested document
`["function f() \x7b", "  return 1;", "\x7d"]` the position (1,0) lies
strictly inside the function body, yet `getFunctionAtPosition` returns no
span (the guard at line 177 rejects any position whose own line does not
match the start pattern), while the declaration-line position (0,0) does get
the full span — refuting "for any position strictly inside a function body a
span is returned". -/
theorem c1_counterexample :
    getFunctionAtPosition ["function f() \x7b", "  return 1;", "\x7d"] ⟨1, 0⟩ = none ∧
    getFunctionAtPosition ["function f() \x7b", "  return 1;", "\x7d"] ⟨0, 0⟩ =
      some ⟨0, 0, 2, 1⟩ := by
  decide

/-- C1 (amended): `getFunctionAtPosition` returns a span only when the
queried line itself matches the function-start pattern, and then its
`startLine` is exactly the query line (trivially the nearest matching line
at or above the position); positions strictly inside a body whose line does
not match yield none. -/
theorem c1_span_start (doc : List String) (pos : Pos) (r : Range)
    (h : getFunctionAtPosition doc pos = some r) :
    test (lineAt doc pos.line) = true ∧ r.startLine = pos.line := by
  unfold getFunctionAtPosition at h
  cases ht : test (lineAt doc pos.line) with
  | false =>
    rw [if_pos ht] at h
    simp at h
  | true =>
    rw [if_neg (by simp [ht]), findStart_self doc pos.line ht] at h
    refine ⟨rfl, ?_⟩
    cases he : findEnd doc pos.line with
    | none => simp [he] at h
    | some e =>
      simp [he] at h
      rw [← h]

/-- C1 witness: the amended theorem applied to a concrete document where a
span is returned. -/
theorem c1_span_start_witness :
    test (lineAt ["const g = () => \x7b", "\x7d"] 0) = true ∧
    (Range.mk 0 0 1 1).startLine = 0 :=
  c1_span_start ["const g = () => \x7b", "\x7d"] ⟨0, 0⟩ ⟨0, 0, 1, 1⟩ (by decide)

/-! ## Claim C8 -/

/-- C8 counterexample: the outer function starting at line 0 of
`["function outer() \x7b", "  function inner() \x7b", "    return 1;", "  \x7d"]`
is unterminated (its running brace count never returns to zero by document
end), and position (1,2) lies inside it — yet `getFunctionAtPosition`
returns the span of the nested, well-terminated inner function instead of
none, refuting "none for every position inside that function". -/
theorem c8_counterexample :
    neverRebalances
      ["function outer() \x7b", "  function inner() \x7b", "    return 1;", "  \x7d"] 0 = true ∧
    test (lineAt
      ["function outer() \x7b", "  function inner() \x7b", "    return 1;", "  \x7d"] 0) = true ∧
    getFunctionAtPosition
      ["function outer() \x7b", "  function inner() \x7b", "    return 1;", "  \x7d"] ⟨1, 2⟩ =
      some ⟨1, 0, 3, 3⟩ := by
  decide

/-- C8 (amended): when the brace count started at zero at the queried
position's own line never returns to zero by the end of the document — in
particular for any position on the declaration line of the unterminated
function — `getFunctionAtPosition` returns none, a silent negative result
(the function is total, so no exception is possible); a position inside the
unterminated function that sits on a nested terminated declaration line
instead resolves to the nested span. -/
theorem c8_unterminated_none (doc : List String) (pos : Pos)
    (h : neverRebalances doc pos.line = true) :
    getFunctionAtPosition doc pos = none := by
  unfold getFunctionAtPosition
  cases ht : test (lineAt doc pos.line) with
  | false => rw [if_pos rfl]
  | true =>
    rw [if_neg (by simp), findStart_self doc pos.line ht]
    simp [findEnd_none doc pos.line h]

/-- C8 witness: the amended theorem applied to a one-line unterminated
function. -/
theorem c8_unterminated_none_witness :
    neverRebalances ["function f() \x7b"] 0 = true ∧
    getFunctionAtPosition ["function f() \x7b"] ⟨0, 0⟩ = none :=
  ⟨by decide, c8_unterminated_none ["function f() \x7b"] ⟨0, 0⟩ (by decide)⟩

/-! ## Claim C5 -/

/-- C5: TTL semantics of the cache.  After `put(c, v)` at time `T`, a `get`
of `c` strictly before `T + ttl` returns `v` and a `get` strictly after
`T + ttl` returns none, with `ttl = CACHE_DURATION = 5 * 60 * 1000` ms (5
minutes); the expired entry merely reads as absent — it is still physically
present in the store (`cacheGet` is pure and nothing ever deletes entries),
i.e. lazy expiry. -/
theorem c5_cache_ttl (cache : Cache) (c : String) (v : WireResult) (T n1 n2 : Nat)
    (h1 : n1 < T + CACHE_DURATION) (h2 : T + CACHE_DURATION < n2) :
    cacheGet (cachePut cache c v T) c n1 = some v ∧
    cacheGet (cachePut cache c v T) c n2 = none ∧
    mapGet (cachePut cache c v T) (getCacheKey c) = some ⟨v, c, T⟩ ∧
    CACHE_DURATION = 5 * 60 * 1000 := by
  have hcd : CACHE_DURATION = 300000 := rfl
  unfold cacheGet cachePut
  simp only [mapGet_mapSet_self]
  refine ⟨?_, ?_, trivial, rfl⟩
  · have hf : n1 - T < CACHE_DURATION := by omega
    simp [hf]
  · have hf : ¬ (n2 - T < CACHE_DURATION) := by omega
    simp [hf]

/-- C5 witness: the TTL theorem at a concrete entry, one millisecond after
the put and one millisecond past expiry. -/
theorem c5_cache_ttl_witness :
    cacheGet (cachePut [] "x" sampleResult 0) "x" 1 = some sampleResult ∧
    cacheGet (cachePut [] "x" sampleResult 0) "x" 300001 = none ∧
    mapGet (cachePut [] "x" sampleResult 0) (getCacheKey "x") =
      some ⟨sampleResult, "x", 0⟩ ∧
    CACHE_DURATION = 5 * 60 * 1000 :=
  c5_cache_ttl [] "x" sampleResult 0 1 300001 (by decide) (by decide)

/-! ## Claim C6 -/

/-- C6: cache round-trip on character-equal text.  A `get` of `c1 = c2`
within the TTL after `put(c2, v)` returns exactly `v`, also when an older
entry for the same text existed — `put` overwrites the entry for that hash,
so the most recent put wins. -/
theorem c6_cache_roundtrip (cache : Cache) (c1 c2 : String) (v v' : WireResult)
    (T T' now : Nat) (heq : c1 = c2) (h : now < T + CACHE_DURATION) :
    cacheGet (cachePut cache c2 v T) c1 now = some v ∧
    cacheGet (cachePut (cachePut cache c1 v' T') c2 v T) c1 now = some v := by
  subst heq
  have hcd : CACHE_DURATION = 300000 := rfl
  unfold cacheGet cachePut
  simp only [mapGet_mapSet_self]
  have hf : now - T < CACHE_DURATION := by omega
  constructor <;> simp [hf]

/-- C6 witness: the round-trip theorem at concrete texts and verdicts, with
a distinct older verdict being overwritten. -/
theorem c6_cache_roundtrip_witness :
    cacheGet (cachePut [] "y" sampleResult 5) "y" 10 = some sampleResult ∧
    cacheGet (cachePut (cachePut [] "y" complexResult 0) "y" sampleResult 5) "y" 10 =
      some sampleResult :=
  c6_cache_roundtrip [] "y" "y" sampleResult complexResult 5 0 10 rfl (by decide)

/-! ## Claim C7 -/

/-- The text with all (JS `\s`) whitespace characters removed. -/
def stripWs (s : String) : String :=
  String.mk (s.data.filter (fun c => !(isWs c)))

set_option maxRecDepth 40000 in
/-- C7 counterexample: two code texts that differ only in whitespace
(both strip to `"x=1;"`, and they are unequal) whose 32-bit rolling hashes
collide, so `getCacheKey` gives them the same key — refuting "for every
pair of distinct code texts that differ only in whitespace, the cache keys
differ". -/
theorem c7_counterexample :
    getCacheKey "x=1;\t\t\t \t \t\t \t\t  \t\t\t\t\t \t\t" =
      getCacheKey "x=1;  \t\t \t  \t  \t\t\t\t\t\t \t  " ∧
    "x=1;\t\t\t \t \t\t \t\t  \t\t\t\t\t \t\t" ≠ "x=1;  \t\t \t  \t  \t\t\t\t\t\t \t  " ∧
    stripWs "x=1;\t\t\t \t \t\t \t\t  \t\t\t\t\t \t\t" =
      stripWs "x=1;  \t\t \t  \t  \t\t\t\t\t\t \t  " := by
  decide

set_option maxRecDepth 40000 in
/-- C7 (amended): the hash does not normalize whitespace, so whitespace-only
differences generally produce different keys and hence cache misses — e.g.
`"a b"` and `"a  b"` get different keys, and a `get` of one after a `put` of
the other into an empty cache misses — but because the key is a 32-bit
rolling hash this is not universal: specific whitespace-differing pairs
collide and share one entry. -/
theorem c7_whitespace_miss (v : WireResult) (T now : Nat) :
    getCacheKey "a b" ≠ getCacheKey "a  b" ∧
    cacheGet (cachePut [] "a b" v T) "a  b" now = none := by
  have hne : ¬ (getCacheKey "a b" = getCacheKey "a  b") := by decide
  refine ⟨hne, ?_⟩
  simp [cacheGet, cachePut, mapSet, mapGet, hne]

/-! ## Claim C2 -/

/-- C2 (code bug): the source comments the handler with "Debounce updates",
but each change event schedules an independent `setTimeout` and nothing in
the repository ever cancels a pending timer — so two edits 100 ms apart
(both inside the claimed 500 ms window) execute two scheduler passes (timers
at 500 ms and 600 ms), not exactly one.  Each pass does read the live
document, so both reflect the final text, but the superseded pass runs
instead of being cancelled. -/
theorem c2_debounce_counts :
    passesExecuted [(0, "a"), (100, "ab")] = 2 ∧
    (timersAfterEdits [(0, "a"), (100, "ab")]).2 = [500, 600] ∧
    (timersAfterEdits [(0, "a"), (100, "ab")]).1 = "ab" := by
  decide

/-! ## Claim C4 -/

/-- C4: a scheduler pass (`updateInlineDecorations`) never issues a
classifier network call — its effect list holds no `apiCall` for any input —
and when inline analysis is enabled it emits exactly one full replacement
`setDecorations` whose content is the filterMap of the located spans through
the cache: each unexpired cache hit contributes its decoration, and every
span that misses the cache (or whose entry expired) is silently skipped. -/
theorem c4_scheduler_no_network (inlineEnabled : Bool) (doc : List String)
    (cache : Cache) (now : Nat) :
    (updateInlineDecorations inlineEnabled doc cache now).all
      (fun e => !(Effect.isApiCall e)) = true ∧
    updateInlineDecorations true doc cache now =
      [.setDecorations (decorationsFromCache doc cache now)] := by
  constructor
  · cases inlineEnabled with
    | false => rfl
    | true => simp [updateInlineDecorations, Effect.isApiCall]
  · unfold updateInlineDecorations
    rw [if_neg (by simp)]
    rw [uidBody_foldl]
    simp [decorationsFromCache]

/-! ## Claim C3 -/

/-- C3 counterexample: on the hover path with an empty cache and a failing
classifier call, the effect trace does contain a visible notification (the
API client's `showErrorMessage` at apiClient.ts lines 48-50 runs on this
path too), refuting "no visible user notification is produced by any code
executed on that path (including the API client)"; the hover itself still
returns no result. -/
theorem c3_counterexample :
    ((provideHover ["function f() \x7b", "\x7d"] ⟨0, 0⟩ [] 0
        (.failure ⟨"Network Error", none⟩)).2.2.any Effect.isVisibleNotification) = true ∧
    (provideHover ["function f() \x7b", "\x7d"] ⟨0, 0⟩ [] 0
        (.failure ⟨"Network Error", none⟩)).1 = none := by
  decide

/-- C3 (amended): the hover provider itself swallows classifier failures —
it returns no hover, leaves the cache unchanged and only appends a log
entry — but the API client executed on that same path first shows exactly
one visible error notification naming the failure cause (the same
notification the manual path produces), so the hover path is not
notification-free. -/
theorem c3_hover_failure_effects (doc : List String) (pos : Pos) (cache : Cache)
    (now : Nat) (e : AxiosError) (r : Range)
    (hr : getFunctionAtPosition doc pos = some r)
    (hmiss : mapGet cache (getCacheKey (getText doc r)) = none) :
    provideHover doc pos cache now (.failure e) =
      (none, cache,
        [.apiCall (getText doc r),
         .showErrorMessage ("API Error: " ++ jsOrDetail e ++ ". Check your API key in settings."),
         .logError "Failed to analyze function on hover:"]) := by
  unfold provideHover
  rw [hr]
  simp [hmiss, hoverFetch, analyzeCode]

/-- C3 witness: the amended theorem at a concrete document, position, empty
cache and failing call. -/
theorem c3_hover_failure_effects_witness :
    provideHover ["function f() \x7b", "\x7d"] ⟨0, 0⟩ [] 7 (.failure ⟨"boom", none⟩) =
      (none, ([] : Cache),
        [.apiCall (getText ["function f() \x7b", "\x7d"] ⟨0, 0, 1, 1⟩),
         .showErrorMessage ("API Error: " ++ jsOrDetail ⟨"boom", none⟩ ++
           ". Check your API key in settings."),
         .logError "Failed to analyze function on hover:"]) :=
  c3_hover_failure_effects ["function f() \x7b", "\x7d"] ⟨0, 0⟩ [] 7 ⟨"boom", none⟩
    ⟨0, 0, 1, 1⟩ (by decide) (by decide)

/-! ## Claim C9 -/

/-- C9 counterexample: `analyzeCode` performs no response validation — on a
transport success whose body is not a well-formed ComplexityVerdict
(complexity "banana", confidence 2, negative loc) it returns that body as a
success instead of failing with a ClassifierBadResponse-style error. -/
theorem c9_counterexample :
    (analyzeCode "function f() \x7b\x7d"
        (.success ⟨"banana", 2, -1, 0, 0, 0, 0, 0, []⟩)).1 =
      .ok ⟨"banana", 2, -1, 0, 0, 0, 0, 0, []⟩ ∧
    ¬ isWellFormedVerdict ⟨"banana", 2, -1, 0, 0, 0, 0, 0, []⟩ :=
  ⟨rfl, by decide⟩

/-- C9 (amended): `analyzeCode` does not interpret the response at all: on
any transport success it returns the raw response data unchanged (even when
it is not a well-formed ComplexityVerdict), and on any transport failure it
shows exactly one error notification embedding the server-supplied detail
(or, when that is absent or empty, the transport message) and rethrows the
original error — unreachable endpoint, rejected credentials and
uninterpretable response are not distinguished as typed failures. -/
theorem c9_no_validation (code : String) (data : WireResult) (e : AxiosError) :
    analyzeCode code (.success data) = (.ok data, [.apiCall code]) ∧
    analyzeCode code (.failure e) =
      (.error e,
        [.apiCall code,
         .showErrorMessage ("API Error: " ++ jsOrDetail e ++
           ". Check your API key in settings.")]) :=
  ⟨rfl, rfl⟩

/-! ## Claim C10 -/

/-- C10: `analyzeSelection` never modifies the cache; whenever the resulting
text — the selected text for a non-empty selection, the entire document text
for an empty selection — is empty or whitespace-only, it shows exactly the
"No code selected" error and issues no classifier call; with an empty
selection and non-blank text it analyzes the entire document text (the
first effect is the classifier call on the full text). -/
theorem c10_selection_edge_cases (doc : List String) (sel : Selection)
    (cache : Cache) (outcome : ApiOutcome) :
    (analyzeSelection (some (doc, sel)) cache outcome).2 = cache ∧
    (jsTrim (if sel.isEmpty then flattenS doc else getTextSel doc sel) = "" →
      analyzeSelection (some (doc, sel)) cache outcome =
        ([.showErrorMessage "No code selected"], cache)) ∧
    (sel.isEmpty = true → ¬ (jsTrim (flattenS doc) = "") →
      (analyzeSelection (some (doc, sel)) cache outcome).1.head? =
        some (.apiCall (flattenS doc))) := by
  refine ⟨?_, ?_, ?_⟩
  · unfold analyzeSelection
    by_cases h : jsTrim (if sel.isEmpty then flattenS doc else getTextSel doc sel) = ""
    · simp [h]
    · cases outcome <;> simp [h, analyzeCode]
  · intro h
    simp [analyzeSelection, h]
  · intro h1 h2
    cases outcome with
    | success data => simp [analyzeSelection, h1, h2, analyzeCode]
    | failure e => simp [analyzeSelection, h1, h2, analyzeCode]

/-- C10 witness: the theorem applied to a whitespace-only document under an
empty selection (error path through the whole-document branch), to a
non-empty selection whose selected text is whitespace-only (error path
through the `getText(selection)` branch), and to a non-blank document
(whole-document analysis). -/
theorem c10_selection_edge_cases_witness :
    analyzeSelection (some (["   ", "\t"], ⟨0, 0, 0, 0⟩)) [] (.failure ⟨"x", none⟩) =
      ([.showErrorMessage "No code selected"], []) ∧
    analyzeSelection (some (["ab   cd"], ⟨0, 2, 0, 5⟩)) [] (.success sampleResult) =
      ([.showErrorMessage "No code selected"], []) ∧
    (analyzeSelection (some (["let a = 1;"], ⟨0, 0, 0, 0⟩)) []
        (.success sampleResult)).1.head? = some (.apiCall "let a = 1;") := by
  refine ⟨?_, ?_, ?_⟩
  · exact (c10_selection_edge_cases ["   ", "\t"] ⟨0, 0, 0, 0⟩ []
      (.failure ⟨"x", none⟩)).2.1 (by decide)
  · exact (c10_selection_edge_cases ["ab   cd"] ⟨0, 2, 0, 5⟩ []
      (.success sampleResult)).2.1 (by decide)
  · exact (c10_selection_edge_cases ["let a = 1;"] ⟨0, 0, 0, 0⟩ []
      (.success sampleResult)).2.2 (by decide) (by decide)
